import Mathlib

/-
Verification of the HealthEase referral-settlement core: revenue split,
wallet ledger, referral lifecycle, and payout workflow. The backend route
handlers live in `backend/app/routes/` of the original project; here they
are modelled from the specification and checked against it, together with
the frontend dashboard logic that is present in the repository.
-/

namespace HealthEase

/-- Error taxonomy of §7 of the specification. -/
inductive Err
  | validationError
  | paymentVerificationFailed
  | invalidStateTransition
  | insufficientBalance
  | notFound
  | ledgerInvariantViolation
deriving DecidableEq, Repr

/-- Modelled from the spec: minimum payout threshold of ₹100 enforced by
`backend/app/routes/wallet.py` (absent from src/), documented in
BACKEND_COMPLETE.md as "Payout requests (min ₹100)". -/
def minimumPayoutThreshold : ℚ := 100

/-- Modelled from the spec: destination percentage of the Smart Referral
Revenue Split, `destPct = 60 + (destOccupancyPct / 100) * 10`, documented in
BACKEND_COMPLETE.md as `destination_split = 60% + (capacity_factor * 10%)`.
The computing code (`backend/app/routes/referrals.py`) is absent from src/. -/
def destPct (destOccupancyPct : ℚ) : ℚ :=
  60 + destOccupancyPct / 100 * 10

/-- Modelled from the spec: the pure revenue split
`split(grossAmount, platformFee, destOccupancyPct) -> (destShare, sourceShare)`
with `net = grossAmount - platformFee`, `destShare = round(net * destPct / 100)`
and `sourceShare = net - destShare`. -/
def split (grossAmount platformFee destOccupancyPct : ℚ) : ℚ × ℚ :=
  let net := grossAmount - platformFee
  let destShare : ℚ := ((round (net * destPct destOccupancyPct / 100) : ℤ) : ℚ)
  (destShare, net - destShare)

/-- C1: for all inputs in the valid ranges, the two shares returned by
`split` sum to `grossAmount - platformFee` exactly: the remainder of the
rounded destination share is assigned to the source, so no rounding leaks. -/
theorem split_completeness (grossAmount platformFee destOccupancyPct : ℚ)
    (hfee0 : 0 ≤ platformFee) (hfee : platformFee ≤ grossAmount)
    (hocc0 : 0 ≤ destOccupancyPct) (hocc : destOccupancyPct ≤ 100) :
    (split grossAmount platformFee destOccupancyPct).1 +
      (split grossAmount platformFee destOccupancyPct).2 =
      grossAmount - platformFee := by
  simp only [split]
  ring

/-- Witness for C1 at the spec's worked example `(150, 40, 80)`. -/
theorem split_completeness_witness :
    (split 150 40 80).1 + (split 150 40 80).2 = 150 - 40 :=
  split_completeness 150 40 80 (by norm_num) (by norm_num) (by norm_num)
    (by norm_num)

/-- The split at the spec's worked example: net 110, destPct 68,
destShare round(74.8) = 75, sourceShare 35. -/
theorem split_at_example : split 150 40 80 = (75, 35) := by
  have h : round ((150 - 40) * destPct 80 / 100 : ℚ) = 75 := by
    have : ((150 - 40) * destPct 80 / 100 : ℚ) = 374 / 5 := by
      simp [destPct]; norm_num
    rw [this, round_eq]
    norm_num [Int.floor_eq_iff]
  simp [split, h]
  norm_num

/-- C5: the split computes `destPct = 60 + (destOccupancyPct / 100) * 10` and
`destShare = round(net * destPct / 100)`; at gross 150, fee 40, occupancy 80 it
returns destination share 75 and source share 35. -/
theorem split_formula_and_example :
    (∀ occ : ℚ, destPct occ = 60 + occ / 100 * 10) ∧
    (∀ g f occ : ℚ,
      (split g f occ).1 = ((round ((g - f) * destPct occ / 100) : ℤ) : ℚ)) ∧
    split 150 40 80 = (75, 35) :=
  ⟨fun _ => rfl, fun _ _ _ => rfl, split_at_example⟩

/-- Transaction type vocabulary, persisted as
`referral_earning|payout|refund|adjustment` (spec §6; rendered by
frontend/src/pages/hospital/Wallet.jsx `getTypeColor`). -/
inductive TxnType
  | referralEarning
  | payout
  | refund
  | adjustment
deriving DecidableEq, Repr

/-- Modelled from the spec: a LedgerTransaction record of the Ledger Store
(`backend/app/routes/wallet.py` is absent from src/): type, signed amount,
balance_after, description and optional related referral, as rendered by
frontend/src/pages/hospital/Wallet.jsx (txn.type, txn.amount,
txn.balance_after, txn.description). -/
structure LedgerTransaction where
  type : TxnType
  amount : ℚ
  balance_after : ℚ
  description : String
  relatedReferral : Option Nat
deriving DecidableEq, Repr

/-- A wallet's ledger, most recent transaction first (append = prepend). -/
abbrev Ledger := List LedgerTransaction

/-- Modelled from the spec: `currentBalance(walletId)` is the `balance_after`
of the wallet's most recent LedgerTransaction, or zero if none exist. -/
def currentBalance (ledger : Ledger) : ℚ :=
  match ledger with
  | [] => 0
  | t :: _ => t.balance_after

/-- Modelled from the spec: `credit` reads the last `balance_after` (or 0),
computes the new balance and appends a new LedgerTransaction atomically. -/
def credit (ledger : Ledger) (amount : ℚ) (type : TxnType)
    (description : String) (relatedReferral : Option Nat) : Ledger :=
  { type := type, amount := amount,
    balance_after := currentBalance ledger + amount,
    description := description, relatedReferral := relatedReferral } :: ledger

/-- Modelled from the spec: `debit` additionally enforces
`amount ≤ currentBalance`, failing with `InsufficientBalance` otherwise; on
success it appends a transaction with signed (negative) amount. -/
def debit (ledger : Ledger) (amount : ℚ) (type : TxnType)
    (description : String) (relatedReferral : Option Nat) :
    Except Err Ledger :=
  if amount ≤ currentBalance ledger then
    .ok ({ type := type, amount := -amount,
           balance_after := currentBalance ledger - amount,
           description := description,
           relatedReferral := relatedReferral } :: ledger)
  else
    .error .insufficientBalance

/-- Sum of the signed amounts of all transactions of a ledger. -/
def ledgerSum (ledger : Ledger) : ℚ :=
  (ledger.map (·.amount)).sum

/-- The §3 LedgerTransaction invariant
`balance_after[n] = balance_after[n-1] + amount[n]` along the wallet's
totally ordered log (most recent first), with `balance_after[0] = amount[0]`. -/
def chainedB : Ledger → Bool
  | [] => true
  | [t] => decide (t.balance_after = t.amount)
  | t :: u :: rest =>
      decide (t.balance_after = u.balance_after + t.amount) &&
        chainedB (u :: rest)

/-- A single wallet-mutating operation: the only mutators are credit and
debit (spec §4.4); a failed debit leaves the ledger unchanged. -/
inductive WalletOp
  | creditOp (amount : ℚ) (type : TxnType) (description : String)
      (relatedReferral : Option Nat)
  | debitOp (amount : ℚ) (type : TxnType) (description : String)
      (relatedReferral : Option Nat)

/-- Apply one wallet operation; a failed debit is a no-op on the ledger. -/
def applyWalletOp (ledger : Ledger) : WalletOp → Ledger
  | .creditOp a ty d r => credit ledger a ty d r
  | .debitOp a ty d r =>
      match debit ledger a ty d r with
      | .ok l => l
      | .error _ => ledger

/-- Apply a sequence of wallet operations in order. -/
def applyWalletOps (ledger : Ledger) (ops : List WalletOp) : Ledger :=
  ops.foldl applyWalletOp ledger

theorem currentBalance_eq_sum_of_chained (ledger : Ledger)
    (h : chainedB ledger = true) : currentBalance ledger = ledgerSum ledger := by
  induction ledger with
  | nil => simp [currentBalance, ledgerSum]
  | cons t rest ih =>
      cases rest with
      | nil =>
          simp only [chainedB, decide_eq_true_eq] at h
          simp [currentBalance, ledgerSum, h]
      | cons u rest2 =>
          simp only [chainedB, Bool.and_eq_true, decide_eq_true_eq] at h
          have hu := ih h.2
          simp only [currentBalance] at hu
          simp only [ledgerSum, List.map_cons, List.sum_cons] at hu
          simp only [currentBalance, ledgerSum, List.map_cons, List.sum_cons]
          rw [h.1, hu]
          ring

theorem chainedB_cons (ledger : Ledger) (t : LedgerTransaction)
    (h : chainedB ledger = true)
    (ht : t.balance_after = currentBalance ledger + t.amount) :
    chainedB (t :: ledger) = true := by
  cases ledger with
  | nil => simp [chainedB, ht, currentBalance]
  | cons u rest =>
      simp only [chainedB, Bool.and_eq_true, decide_eq_true_eq]
      exact ⟨by simpa [currentBalance] using ht, h⟩

theorem chainedB_credit (ledger : Ledger) (a : ℚ) (ty : TxnType)
    (d : String) (r : Option Nat) (h : chainedB ledger = true) :
    chainedB (credit ledger a ty d r) = true :=
  chainedB_cons ledger _ h rfl

theorem chainedB_applyWalletOp (ledger : Ledger) (op : WalletOp)
    (h : chainedB ledger = true) :
    chainedB (applyWalletOp ledger op) = true := by
  cases op with
  | creditOp a ty d r => exact chainedB_credit ledger a ty d r h
  | debitOp a ty d r =>
      simp only [applyWalletOp, debit]
      by_cases hle : a ≤ currentBalance ledger
      · simp only [hle, if_pos]
        exact chainedB_cons ledger _ h (by ring)
      · simp [hle, h]

theorem applyWalletOp_suffix (ledger : Ledger) (op : WalletOp) :
    ∃ ds, applyWalletOp ledger op = ds ++ ledger := by
  cases op with
  | creditOp a ty d r => exact ⟨[_], rfl⟩
  | debitOp a ty d r =>
      simp only [applyWalletOp, debit]
      by_cases hle : a ≤ currentBalance ledger
      · simp only [hle, if_pos]
        exact ⟨[_], rfl⟩
      · exact ⟨[], by simp [hle]⟩

theorem applyWalletOps_suffix (ops : List WalletOp) :
    ∀ ledger : Ledger, ∃ ds, applyWalletOps ledger ops = ds ++ ledger := by
  induction ops with
  | nil => exact fun ledger => ⟨[], rfl⟩
  | cons op rest ih =>
      intro ledger
      obtain ⟨d1, h1⟩ := applyWalletOp_suffix ledger op
      obtain ⟨d2, h2⟩ := ih (applyWalletOp ledger op)
      refine ⟨d2 ++ d1, ?_⟩
      simp only [applyWalletOps, List.foldl] at h2 ⊢
      rw [h2, h1]
      simp [List.append_assoc]

theorem chainedB_applyWalletOps (ops : List WalletOp) :
    ∀ ledger : Ledger, chainedB ledger = true →
      chainedB (applyWalletOps ledger ops) = true := by
  induction ops with
  | nil => exact fun ledger h => h
  | cons op rest ih =>
      intro ledger h
      exact ih (applyWalletOp ledger op) (chainedB_applyWalletOp ledger op h)

/-- C3: after any sequence of credit/debit operations starting from a ledger
satisfying the chain invariant, the invariant still holds, the cached
`currentBalance` (the `balance_after` of the most recent transaction, zero if
none) equals the sum of the signed amounts of all transactions, and the log
is append-only: the old log is a suffix of the new one. -/
theorem ledger_integrity (ledger : Ledger) (ops : List WalletOp)
    (h : chainedB ledger = true) :
    chainedB (applyWalletOps ledger ops) = true ∧
    currentBalance (applyWalletOps ledger ops) =
      ledgerSum (applyWalletOps ledger ops) ∧
    ∃ ds, applyWalletOps ledger ops = ds ++ ledger := by
  have hc := chainedB_applyWalletOps ops ledger h
  exact ⟨hc, currentBalance_eq_sum_of_chained _ hc, applyWalletOps_suffix ops ledger⟩

/-- Witness for C3: a credit of 110 then a debit of 30 from the empty ledger
leaves a chained two-entry log whose cached balance equals its amount sum. -/
theorem ledger_integrity_witness :
    chainedB (applyWalletOps []
        [WalletOp.creditOp 110 .referralEarning "" none,
         WalletOp.debitOp 30 .payout "" none]) = true ∧
    currentBalance (applyWalletOps []
        [WalletOp.creditOp 110 .referralEarning "" none,
         WalletOp.debitOp 30 .payout "" none]) =
      ledgerSum (applyWalletOps []
        [WalletOp.creditOp 110 .referralEarning "" none,
         WalletOp.debitOp 30 .payout "" none]) ∧
    ∃ ds, applyWalletOps []
        [WalletOp.creditOp 110 .referralEarning "" none,
         WalletOp.debitOp 30 .payout "" none] = ds ++ [] :=
  ledger_integrity [] _ rfl

/-- Payout status vocabulary, persisted as `pending|approved|rejected|completed`
(spec §6; rendered by frontend/src/pages/hospital/Wallet.jsx `getStatusColor`). -/
inductive PayoutStatus
  | pending
  | approved
  | rejected
  | completed
deriving DecidableEq, Repr

/-- Bank details of a payout request, the fields collected by the payout form
of frontend/src/pages/hospital/Wallet.jsx. -/
structure BankDetails where
  account_holder_name : String
  bank_account_number : String
  ifsc_code : String
deriving DecidableEq, Repr

/-- Modelled from the spec: a PayoutRequest record of the Payout Workflow
(`backend/app/routes/wallet.py` / admin payout endpoints are absent from
src/): amount, bank details, status and processor identity. -/
structure PayoutRequest where
  amount : ℚ
  bank : BankDetails
  status : PayoutStatus
  processor : Option String
deriving DecidableEq, Repr

/-- Modelled from the spec: `requestPayout(walletId, amount, bankDetails)`
requires `amount ≥ minimumPayoutThreshold` and `amount ≤ currentBalance` at
request time and creates a PayoutRequest in Pending. -/
def requestPayout (ledger : Ledger) (amount : ℚ) (bank : BankDetails) :
    Except Err PayoutRequest :=
  if amount < minimumPayoutThreshold then
    .error .validationError
  else if currentBalance ledger < amount then
    .error .insufficientBalance
  else
    .ok { amount := amount, bank := bank, status := .pending, processor := none }

/-- Modelled from the spec: `approvePayout(requestId, processor)` re-validates
`amount ≤ currentBalance` at approval time; on success it performs the debit
and marks the request Completed in the same atomic step; on insufficient
funds it fails with `InsufficientBalance` (leaving the request Pending). -/
def approvePayout (ledger : Ledger) (req : PayoutRequest)
    (processor : String) : Except Err (Ledger × PayoutRequest) :=
  if req.status = .pending then
    match debit ledger req.amount .payout "Payout" none with
    | .ok l2 =>
        .ok (l2, { req with status := .completed, processor := some processor })
    | .error e => .error e
  else
    .error .invalidStateTransition

/-- A balance-decreasing operation for the no-negative-balance property:
either a direct wallet debit or an admin payout approval; a failed operation
leaves the ledger unchanged. -/
inductive SpendOp
  | debitOp (amount : ℚ) (type : TxnType) (description : String)
      (relatedReferral : Option Nat)
  | approveOp (req : PayoutRequest) (processor : String)

/-- Apply one debit/payout-approval operation to a ledger; failures are
no-ops on the ledger. -/
def applySpendOp (ledger : Ledger) : SpendOp → Ledger
  | .debitOp a ty d r =>
      match debit ledger a ty d r with
      | .ok l => l
      | .error _ => ledger
  | .approveOp req p =>
      match approvePayout ledger req p with
      | .ok (l, _) => l
      | .error _ => ledger

/-- Apply a sequence of debit/payout-approval operations in order. -/
def applySpendOps (ledger : Ledger) (ops : List SpendOp) : Ledger :=
  ops.foldl applySpendOp ledger

theorem currentBalance_applySpendOp_nonneg (ledger : Ledger) (op : SpendOp)
    (h : 0 ≤ currentBalance ledger) :
    0 ≤ currentBalance (applySpendOp ledger op) := by
  cases op with
  | debitOp a ty d r =>
      simp only [applySpendOp, debit]
      by_cases hle : a ≤ currentBalance ledger
      · simp only [hle, if_pos]
        simpa [currentBalance] using sub_nonneg.mpr hle
      · simpa [hle] using h
  | approveOp req p =>
      simp only [applySpendOp, approvePayout]
      by_cases hp : req.status = .pending
      · simp only [hp, if_pos]
        simp only [debit]
        by_cases hle : req.amount ≤ currentBalance ledger
        · simp only [hle, if_pos]
          simpa [currentBalance] using sub_nonneg.mpr hle
        · simpa [hle] using h
      · simpa [hp] using h

theorem currentBalance_applySpendOps_nonneg (ops : List SpendOp) :
    ∀ ledger : Ledger, 0 ≤ currentBalance ledger →
      0 ≤ currentBalance (applySpendOps ledger ops) := by
  induction ops with
  | nil => exact fun ledger h => h
  | cons op rest ih =>
      intro ledger h
      exact ih (applySpendOp ledger op)
        (currentBalance_applySpendOp_nonneg ledger op h)

/-- C4: `debit` succeeds exactly when the amount is at most the current
balance, failing with `InsufficientBalance` otherwise; consequently no
sequence of debits or payout approvals drives a nonnegative wallet balance
below zero. -/
theorem debit_safety :
    (∀ (ledger : Ledger) (a : ℚ) (ty : TxnType) (d : String) (r : Option Nat),
      ((∃ l2, debit ledger a ty d r = .ok l2) ↔ a ≤ currentBalance ledger) ∧
      (¬ a ≤ currentBalance ledger →
        debit ledger a ty d r = .error .insufficientBalance)) ∧
    (∀ (ops : List SpendOp) (ledger : Ledger), 0 ≤ currentBalance ledger →
      0 ≤ currentBalance (applySpendOps ledger ops)) := by
  refine ⟨fun ledger a ty d r => ⟨⟨?_, ?_⟩, ?_⟩,
    fun ops ledger h => currentBalance_applySpendOps_nonneg ops ledger h⟩
  · rintro ⟨l2, h2⟩
    by_contra hle
    simp [debit, hle] at h2
  · intro hle
    exact ⟨{ type := ty, amount := -a,
             balance_after := currentBalance ledger - a, description := d,
             relatedReferral := r } :: ledger, by simp [debit, hle]⟩
  · intro hle
    simp [debit, hle]

/-- Witness for C4: a debit of 250 from a balance of 200 fails with
`InsufficientBalance`, a debit of 150 succeeds, and a spend sequence from a
nonnegative balance stays nonnegative. -/
theorem debit_safety_witness :
    debit [{ type := .referralEarning, amount := 200, balance_after := 200,
             description := "", relatedReferral := none }] 250 .payout "" none =
      .error .insufficientBalance ∧
    (∃ l2, debit [{ type := .referralEarning, amount := 200,
                    balance_after := 200, description := "",
                    relatedReferral := none }] 150 .payout "" none = .ok l2) ∧
    0 ≤ currentBalance (applySpendOps
      [{ type := .referralEarning, amount := 200, balance_after := 200,
         description := "", relatedReferral := none }]
      [SpendOp.debitOp 150 .payout "" none]) := by
  have h := debit_safety
  refine ⟨(h.1 _ 250 .payout "" none).2 (by norm_num [currentBalance]), ?_, ?_⟩
  · exact ((h.1 _ 150 .payout "" none).1).mpr (by norm_num [currentBalance])
  · exact h.2 _ _ (by norm_num [currentBalance])

/-- C6: with a Pending request, `approvePayout` re-validates the amount
against the current balance: when it fits, the payout debit is appended and
the request is marked Completed in the same step; when funds are
insufficient, it fails with `InsufficientBalance` (and, returning no new
state, leaves the request Pending and the ledger untouched). -/
theorem approvePayout_revalidates (ledger : Ledger) (req : PayoutRequest)
    (processor : String) (hp : req.status = .pending) :
    (req.amount ≤ currentBalance ledger →
      approvePayout ledger req processor =
        .ok ({ type := .payout, amount := -req.amount,
               balance_after := currentBalance ledger - req.amount,
               description := "Payout", relatedReferral := none } :: ledger,
             { req with status := .completed, processor := some processor })) ∧
    (currentBalance ledger < req.amount →
      approvePayout ledger req processor = .error .insufficientBalance) := by
  constructor
  · intro hle
    simp [approvePayout, hp, debit, hle]
  · intro hlt
    simp [approvePayout, hp, debit, not_le.mpr hlt]

/-- Witness for C6: from a balance of 200, approving a 150 request completes
it with the debit, while approving a 250 request fails with
`InsufficientBalance`. -/
theorem approvePayout_revalidates_witness :
    approvePayout
        [{ type := .referralEarning, amount := 200, balance_after := 200,
           description := "", relatedReferral := none }]
        { amount := 150,
          bank := { account_holder_name := "A", bank_account_number := "1",
                    ifsc_code := "SBIN0001234" },
          status := .pending, processor := none } "admin" =
      .ok ([{ type := .payout, amount := -150, balance_after := 50,
              description := "Payout", relatedReferral := none },
            { type := .referralEarning, amount := 200, balance_after := 200,
              description := "", relatedReferral := none }],
           { amount := 150,
             bank := { account_holder_name := "A", bank_account_number := "1",
                       ifsc_code := "SBIN0001234" },
             status := .completed, processor := some "admin" }) ∧
    approvePayout
        [{ type := .referralEarning, amount := 200, balance_after := 200,
           description := "", relatedReferral := none }]
        { amount := 250,
          bank := { account_holder_name := "A", bank_account_number := "1",
                    ifsc_code := "SBIN0001234" },
          status := .pending, processor := none } "admin" =
      .error .insufficientBalance := by
  constructor
  · have h := (approvePayout_revalidates
      [{ type := .referralEarning, amount := 200, balance_after := 200,
         description := "", relatedReferral := none }]
      { amount := 150,
        bank := { account_holder_name := "A", bank_account_number := "1",
                  ifsc_code := "SBIN0001234" },
        status := .pending, processor := none } "admin" rfl).1
      (by norm_num [currentBalance])
    norm_num [currentBalance] at h
    exact h
  · exact (approvePayout_revalidates _ _ "admin" rfl).2
      (by norm_num [currentBalance])

/-- C8: `requestPayout` succeeds exactly when the amount is at least the
₹100 minimum threshold and at most the current balance, and the request it
creates is in status Pending with the given amount and bank details. -/
theorem requestPayout_spec (ledger : Ledger) (a : ℚ) (bank : BankDetails) :
    ((∃ req, requestPayout ledger a bank = .ok req) ↔
      (minimumPayoutThreshold ≤ a ∧ a ≤ currentBalance ledger)) ∧
    (∀ req, requestPayout ledger a bank = .ok req →
      req.status = .pending ∧ req.amount = a ∧ req.bank = bank) := by
  constructor
  · constructor
    · rintro ⟨req, hreq⟩
      by_cases h1 : a < minimumPayoutThreshold
      · simp [requestPayout, h1] at hreq
      · by_cases h2 : currentBalance ledger < a
        · simp [requestPayout, h1, h2] at hreq
        · exact ⟨not_lt.mp h1, not_lt.mp h2⟩
    · rintro ⟨h1, h2⟩
      exact ⟨{ amount := a, bank := bank, status := .pending,
               processor := none },
        by simp [requestPayout, not_lt.mpr h1, not_lt.mpr h2]⟩
  · intro req hreq
    by_cases h1 : a < minimumPayoutThreshold
    · simp [requestPayout, h1] at hreq
    · by_cases h2 : currentBalance ledger < a
      · simp [requestPayout, h1, h2] at hreq
      · simp only [requestPayout, if_neg h1, if_neg h2, Except.ok.injEq] at hreq
        subst hreq
        exact ⟨rfl, rfl, rfl⟩

/-- Witness for C8: with balance 200, a request of 150 is created Pending;
the success condition holds at 150 and fails at 250 and at 50. -/
theorem requestPayout_spec_witness :
    (∃ req, requestPayout
        [{ type := .referralEarning, amount := 200, balance_after := 200,
           description := "", relatedReferral := none }] 150
        { account_holder_name := "A", bank_account_number := "1",
          ifsc_code := "SBIN0001234" } = .ok req) ∧
    (∀ req, requestPayout
        [{ type := .referralEarning, amount := 200, balance_after := 200,
           description := "", relatedReferral := none }] 150
        { account_holder_name := "A", bank_account_number := "1",
          ifsc_code := "SBIN0001234" } = .ok req →
      req.status = .pending ∧ req.amount = 150 ∧
        req.bank = { account_holder_name := "A", bank_account_number := "1",
                     ifsc_code := "SBIN0001234" }) := by
  have h := requestPayout_spec
    [{ type := .referralEarning, amount := 200, balance_after := 200,
       description := "", relatedReferral := none }] 150
    { account_holder_name := "A", bank_account_number := "1",
      ifsc_code := "SBIN0001234" }
  exact ⟨h.1.mpr ⟨by norm_num [minimumPayoutThreshold],
    by norm_num [currentBalance]⟩, h.2⟩

/-- Referral lifecycle states of spec §4.1. -/
inductive ReferralStatus
  | created
  | paymentPending
  | awaitingDecision
  | accepted
  | rejected
  | completed
  | failed
deriving DecidableEq, Repr

/-- Payment status of a referral: NotPaid transitions to Paid exactly once. -/
inductive PaymentStatus
  | notPaid
  | paid
deriving DecidableEq, Repr

/-- Modelled from the spec: the Referral record of §3
(`backend/app/routes/referrals.py` is absent from src/): patient, source and
destination hospital references, reason, gross amount, lifecycle status,
payment status, gateway order id (idempotency key) and optional rejection
reason (rendered by frontend/src/pages/hospital/Inventory.jsx). -/
structure Referral where
  patient : Nat
  sourceHospital : Nat
  destHospital : Nat
  reason : String
  grossAmount : ℚ
  status : ReferralStatus
  payment_status : PaymentStatus
  gatewayOrderId : Option String
  rejection_reason : Option String
deriving DecidableEq, Repr

/-- The state acted on by the Referral Lifecycle Manager: the referral
together with the destination and source hospital wallets it settles into. -/
structure SettlementState where
  referral : Referral
  destWallet : Ledger
  sourceWallet : Ledger
deriving DecidableEq, Repr

/-- Modelled from the spec: the Payment Verification Adapter of §4.2 —
a keyed message-authentication check over `orderId|paymentId` with a shared
secret; the MAC itself is a parameter of the model. The adapter is stateless. -/
def verify (mac : String → String → String) (secret : String)
    (orderId paymentId signature : String) : Bool :=
  signature == mac secret (orderId ++ "|" ++ paymentId)

/-- Modelled from the spec: `createReferral` validates that the hospitals
are distinct and both resolvable and creates a referral in Created,
failing with `ValidationError` otherwise. -/
def createReferral (hospitals : List Nat) (patient sourceHospital destHospital : Nat)
    (reason : String) (grossAmount : ℚ) : Except Err Referral :=
  if sourceHospital = destHospital then
    .error .validationError
  else if sourceHospital ∈ hospitals ∧ destHospital ∈ hospitals then
    .ok { patient := patient, sourceHospital := sourceHospital,
          destHospital := destHospital, reason := reason,
          grossAmount := grossAmount, status := .created,
          payment_status := .notPaid, gatewayOrderId := none,
          rejection_reason := none }
  else
    .error .validationError

/-- Modelled from the spec: opening the payment intent moves
Created → PaymentPending and records the gateway order id. -/
def openPaymentIntent (st : SettlementState) (orderId : String) :
    Except Err SettlementState :=
  if st.referral.status = .created then
    .ok { st with referral := { st.referral with
                                status := .paymentPending,
                                gatewayOrderId := some orderId } }
  else
    .error .invalidStateTransition

/-- Modelled from the spec: `confirmPayment` (the verify-payment handler of
`backend/app/routes/referrals.py`, absent from src/). If payment status is
already Paid the call is a no-op success; otherwise, from PaymentPending
with an authentic signature, it computes the split and atomically credits
both wallets, setting status AwaitingDecision and payment status Paid. -/
def confirmPayment (mac : String → String → String) (secret : String)
    (st : SettlementState) (orderId paymentId signature : String)
    (platformFee destOccupancyPct : ℚ) : Except Err SettlementState :=
  if st.referral.payment_status = .paid then
    .ok st
  else if st.referral.status = .paymentPending then
    if verify mac secret orderId paymentId signature then
      .ok { referral := { st.referral with
                          status := .awaitingDecision,
                          payment_status := .paid },
            destWallet := credit st.destWallet
              (split st.referral.grossAmount platformFee destOccupancyPct).1
              .referralEarning "Referral earning" none,
            sourceWallet := credit st.sourceWallet
              (split st.referral.grossAmount platformFee destOccupancyPct).2
              .referralEarning "Referral earning" none }
    else
      .error .paymentVerificationFailed
  else
    .error .invalidStateTransition

/-- Modelled from the spec: `acceptReferral` is only valid from
AwaitingDecision and only by the destination hospital; it sets Accepted. -/
def acceptReferral (st : SettlementState) (actingHospital : Nat) :
    Except Err SettlementState :=
  if st.referral.status = .awaitingDecision then
    if actingHospital = st.referral.destHospital then
      .ok { st with referral := { st.referral with status := .accepted } }
    else
      .error .validationError
  else
    .error .invalidStateTransition

/-- Modelled from the spec: `rejectReferral` is only valid from
AwaitingDecision, requires a reason (the frontend handleRejectReferral also
refuses an empty one), sets Rejected and touches no wallet. -/
def rejectReferral (st : SettlementState) (actingHospital : Nat)
    (reason : String) : Except Err SettlementState :=
  if st.referral.status = .awaitingDecision then
    if reason = "" then
      .error .validationError
    else
      .ok { st with referral := { st.referral with
                                  status := .rejected,
                                  rejection_reason := some reason } }
  else
    .error .invalidStateTransition

/-- Modelled from the spec: `completeReferral` is only valid from Accepted
and marks Completed; informational only, no financial effect. -/
def completeReferral (st : SettlementState) : Except Err SettlementState :=
  if st.referral.status = .accepted then
    .ok { st with referral := { st.referral with status := .completed } }
  else
    .error .invalidStateTransition

/-- C2: once a first `confirmPayment` succeeds from NotPaid, the new state is
Paid and AwaitingDecision with exactly one new credit on each wallet, and any
second or further call with the same gateway order id (whatever the payment
id, signature, fee or occupancy) is a no-op success returning the state
unchanged — no wallet is credited again and no further Paid transition
occurs. -/
theorem confirmPayment_idempotent (mac : String → String → String)
    (secret : String) (st st₁ : SettlementState)
    (oid pid sig : String) (fee occ : ℚ)
    (h0 : st.referral.payment_status = .notPaid)
    (h1 : confirmPayment mac secret st oid pid sig fee occ = .ok st₁) :
    st₁.referral.payment_status = .paid ∧
    st₁.referral.status = .awaitingDecision ∧
    st₁.destWallet.length = st.destWallet.length + 1 ∧
    st₁.sourceWallet.length = st.sourceWallet.length + 1 ∧
    ∀ (pid2 sig2 : String) (fee2 occ2 : ℚ),
      confirmPayment mac secret st₁ oid pid2 sig2 fee2 occ2 = .ok st₁ := by
  have hns : ¬ st.referral.payment_status = .paid := by
    rw [h0]; intro hc; cases hc
  by_cases hst : st.referral.status = .paymentPending
  · by_cases hv : verify mac secret oid pid sig = true
    · simp only [confirmPayment, if_neg hns, if_pos hst, hv, if_true] at h1
      injection h1 with h2
      subst h2
      refine ⟨rfl, rfl, by simp [credit], by simp [credit], ?_⟩
      intro pid2 sig2 fee2 occ2
      simp [confirmPayment]
    · simp only [Bool.not_eq_true] at hv
      simp [confirmPayment, if_neg hns, if_pos hst, hv] at h1
  · simp [confirmPayment, if_neg hns, hst] at h1

/-- Witness for C2: a concrete paid-for referral of gross 150 with fee 40 and
occupancy 80 settles once into credits of 75 and 35, and the repeated call is
the identity on the settled state. -/
theorem confirmPayment_idempotent_witness :
    ({ referral := { patient := 1, sourceHospital := 2, destHospital := 3,
                     reason := "care", grossAmount := 150,
                     status := .awaitingDecision, payment_status := .paid,
                     gatewayOrderId := some "order1",
                     rejection_reason := none },
       destWallet := [{ type := .referralEarning, amount := 75,
                        balance_after := 75, description := "Referral earning",
                        relatedReferral := none }],
       sourceWallet := [{ type := .referralEarning, amount := 35,
                          balance_after := 35,
                          description := "Referral earning",
                          relatedReferral := none }] } :
        SettlementState).referral.payment_status = .paid ∧
    (∀ (pid2 sig2 : String) (fee2 occ2 : ℚ),
      confirmPayment (fun s m => s ++ ":" ++ m) "k"
        { referral := { patient := 1, sourceHospital := 2, destHospital := 3,
                        reason := "care", grossAmount := 150,
                        status := .awaitingDecision, payment_status := .paid,
                        gatewayOrderId := some "order1",
                        rejection_reason := none },
          destWallet := [{ type := .referralEarning, amount := 75,
                           balance_after := 75,
                           description := "Referral earning",
                           relatedReferral := none }],
          sourceWallet := [{ type := .referralEarning, amount := 35,
                             balance_after := 35,
                             description := "Referral earning",
                             relatedReferral := none }] }
        "order1" pid2 sig2 fee2 occ2 =
      .ok { referral := { patient := 1, sourceHospital := 2, destHospital := 3,
                          reason := "care", grossAmount := 150,
                          status := .awaitingDecision, payment_status := .paid,
                          gatewayOrderId := some "order1",
                          rejection_reason := none },
            destWallet := [{ type := .referralEarning, amount := 75,
                             balance_after := 75,
                             description := "Referral earning",
                             relatedReferral := none }],
            sourceWallet := [{ type := .referralEarning, amount := 35,
                               balance_after := 35,
                               description := "Referral earning",
                               relatedReferral := none }] }) := by
  have h := confirmPayment_idempotent (fun s m => s ++ ":" ++ m) "k"
    { referral := { patient := 1, sourceHospital := 2, destHospital := 3,
                    reason := "care", grossAmount := 150,
                    status := .paymentPending, payment_status := .notPaid,
                    gatewayOrderId := some "order1",
                    rejection_reason := none },
      destWallet := [], sourceWallet := [] }
    { referral := { patient := 1, sourceHospital := 2, destHospital := 3,
                    reason := "care", grossAmount := 150,
                    status := .awaitingDecision, payment_status := .paid,
                    gatewayOrderId := some "order1",
                    rejection_reason := none },
      destWallet := [{ type := .referralEarning, amount := 75,
                       balance_after := 75, description := "Referral earning",
                       relatedReferral := none }],
      sourceWallet := [{ type := .referralEarning, amount := 35,
                         balance_after := 35,
                         description := "Referral earning",
                         relatedReferral := none }] }
    "order1" "pay1" "k:order1|pay1" 40 80 rfl
    (by simp [confirmPayment, verify, credit, currentBalance, split_at_example])
  exact ⟨h.1, h.2.2.2.2⟩

/-- The directed edge set of the §4.1 referral state machine. -/
def isEdge : ReferralStatus → ReferralStatus → Bool
  | .created, .paymentPending => true
  | .paymentPending, .awaitingDecision => true
  | .paymentPending, .failed => true
  | .awaitingDecision, .accepted => true
  | .awaitingDecision, .rejected => true
  | .accepted, .completed => true
  | _, _ => false

/-- One lifecycle operation on an existing referral: opening the payment
intent, confirming payment, accepting, rejecting, or completing. -/
inductive LifecycleOp
  | intent (orderId : String)
  | confirm (orderId paymentId signature : String) (platformFee destOccupancyPct : ℚ)
  | accept (actingHospital : Nat)
  | reject (actingHospital : Nat) (reason : String)
  | complete

/-- Dispatch a lifecycle operation to the corresponding manager function. -/
def applyOp (mac : String → String → String) (secret : String)
    (st : SettlementState) : LifecycleOp → Except Err SettlementState
  | .intent oid => openPaymentIntent st oid
  | .confirm oid pid sig fee occ => confirmPayment mac secret st oid pid sig fee occ
  | .accept h => acceptReferral st h
  | .reject h r => rejectReferral st h r
  | .complete => completeReferral st

/-- The status an operation attempts to move the referral to; `none` for a
duplicate `confirmPayment` on an already-Paid referral, which by §4.1 attempts
no transition (idempotent no-op). -/
def attemptTarget (st : SettlementState) : LifecycleOp → Option ReferralStatus
  | .intent _ => some .paymentPending
  | .confirm _ _ _ _ _ =>
      if st.referral.payment_status = .paid then none
      else some .awaitingDecision
  | .accept _ => some .accepted
  | .reject _ _ => some .rejected
  | .complete => some .completed

/-- C7: a successful lifecycle operation either keeps the referral status or
moves it along an edge of §4.1, keeps the payment status except for the single
NotPaid→Paid move, and any operation attempting a non-edge transition fails
with `InvalidStateTransition` (returning no new state, so referral status and
payment status are left unchanged); `createReferral` transitions nothing — it
creates a fresh referral in Created/NotPaid. -/
theorem lifecycle_legality (mac : String → String → String) (secret : String)
    (st : SettlementState) (op : LifecycleOp) :
    (∀ st₂, applyOp mac secret st op = .ok st₂ →
      st₂.referral.status = st.referral.status ∨
        isEdge st.referral.status st₂.referral.status = true) ∧
    (∀ st₂, applyOp mac secret st op = .ok st₂ →
      st₂.referral.payment_status = st.referral.payment_status ∨
        (st.referral.payment_status = .notPaid ∧
          st₂.referral.payment_status = .paid)) ∧
    (∀ tgt, attemptTarget st op = some tgt →
      isEdge st.referral.status tgt = false →
      applyOp mac secret st op = .error .invalidStateTransition) ∧
    (∀ hospitals patient src dst reason g r,
      createReferral hospitals patient src dst reason g = .ok r →
      r.status = .created ∧ r.payment_status = .notPaid) := by
  refine ⟨?_, ?_, ?_, ?_⟩
  · intro st₂ h2
    cases op with
    | intent oid =>
        by_cases hc : st.referral.status = .created
        · simp only [applyOp, openPaymentIntent, if_pos hc] at h2
          injection h2 with h2
          subst h2
          right
          simp [hc, isEdge]
        · simp [applyOp, openPaymentIntent, hc] at h2
    | confirm oid pid sig fee occ =>
        by_cases hp : st.referral.payment_status = .paid
        · simp only [applyOp, confirmPayment, if_pos hp] at h2
          injection h2 with h2
          subst h2
          left; rfl
        · by_cases hst : st.referral.status = .paymentPending
          · by_cases hv : verify mac secret oid pid sig = true
            · simp only [applyOp, confirmPayment, if_neg hp, if_pos hst, hv,
                if_true] at h2
              injection h2 with h2
              subst h2
              right
              simp [hst, isEdge]
            · simp only [Bool.not_eq_true] at hv
              simp [applyOp, confirmPayment, hp, hst, hv] at h2
          · simp [applyOp, confirmPayment, hp, hst] at h2
    | accept h =>
        by_cases hst : st.referral.status = .awaitingDecision
        · by_cases hd : h = st.referral.destHospital
          · simp only [applyOp, acceptReferral, if_pos hst, if_pos hd] at h2
            injection h2 with h2
            subst h2
            right
            simp [hst, isEdge]
          · simp [applyOp, acceptReferral, hst, hd] at h2
        · simp [applyOp, acceptReferral, hst] at h2
    | reject h r =>
        by_cases hst : st.referral.status = .awaitingDecision
        · by_cases hr : r = ""
          · simp [applyOp, rejectReferral, hst, hr] at h2
          · simp only [applyOp, rejectReferral, if_pos hst, if_neg hr] at h2
            injection h2 with h2
            subst h2
            right
            simp [hst, isEdge]
        · simp [applyOp, rejectReferral, hst] at h2
    | complete =>
        by_cases hst : st.referral.status = .accepted
        · simp only [applyOp, completeReferral, if_pos hst] at h2
          injection h2 with h2
          subst h2
          right
          simp [hst, isEdge]
        · simp [applyOp, completeReferral, hst] at h2
  · intro st₂ h2
    cases op with
    | intent oid =>
        by_cases hc : st.referral.status = .created
        · simp only [applyOp, openPaymentIntent, if_pos hc] at h2
          injection h2 with h2
          subst h2
          left; rfl
        · simp [applyOp, openPaymentIntent, hc] at h2
    | confirm oid pid sig fee occ =>
        by_cases hp : st.referral.payment_status = .paid
        · simp only [applyOp, confirmPayment, if_pos hp] at h2
          injection h2 with h2
          subst h2
          left; rfl
        · by_cases hst : st.referral.status = .paymentPending
          · by_cases hv : verify mac secret oid pid sig = true
            · simp only [applyOp, confirmPayment, if_neg hp, if_pos hst, hv,
                if_true] at h2
              injection h2 with h2
              subst h2
              right
              cases hq : st.referral.payment_status with
              | notPaid => exact ⟨rfl, rfl⟩
              | paid => exact absurd hq hp
            · simp only [Bool.not_eq_true] at hv
              simp [applyOp, confirmPayment, hp, hst, hv] at h2
          · simp [applyOp, confirmPayment, hp, hst] at h2
    | accept h =>
        by_cases hst : st.referral.status = .awaitingDecision
        · by_cases hd : h = st.referral.destHospital
          · simp only [applyOp, acceptReferral, if_pos hst, if_pos hd] at h2
            injection h2 with h2
            subst h2
            left; rfl
          · simp [applyOp, acceptReferral, hst, hd] at h2
        · simp [applyOp, acceptReferral, hst] at h2
    | reject h r =>
        by_cases hst : st.referral.status = .awaitingDecision
        · by_cases hr : r = ""
          · simp [applyOp, rejectReferral, hst, hr] at h2
          · simp only [applyOp, rejectReferral, if_pos hst, if_neg hr] at h2
            injection h2 with h2
            subst h2
            left; rfl
        · simp [applyOp, rejectReferral, hst] at h2
    | complete =>
        by_cases hst : st.referral.status = .accepted
        · simp only [applyOp, completeReferral, if_pos hst] at h2
          injection h2 with h2
          subst h2
          left; rfl
        · simp [applyOp, completeReferral, hst] at h2
  · intro tgt htgt hedge
    cases op with
    | intent oid =>
        simp only [attemptTarget, Option.some.injEq] at htgt
        subst htgt
        by_cases hc : st.referral.status = .created
        · rw [hc] at hedge
          simp [isEdge] at hedge
        · simp [applyOp, openPaymentIntent, hc]
    | confirm oid pid sig fee occ =>
        by_cases hp : st.referral.payment_status = .paid
        · simp [attemptTarget, hp] at htgt
        · simp only [attemptTarget, if_neg hp, Option.some.injEq] at htgt
          subst htgt
          by_cases hst : st.referral.status = .paymentPending
          · rw [hst] at hedge
            simp [isEdge] at hedge
          · simp [applyOp, confirmPayment, hp, hst]
    | accept h =>
        simp only [attemptTarget, Option.some.injEq] at htgt
        subst htgt
        by_cases hst : st.referral.status = .awaitingDecision
        · rw [hst] at hedge
          simp [isEdge] at hedge
        · simp [applyOp, acceptReferral, hst]
    | reject h r =>
        simp only [attemptTarget, Option.some.injEq] at htgt
        subst htgt
        by_cases hst : st.referral.status = .awaitingDecision
        · rw [hst] at hedge
          simp [isEdge] at hedge
        · simp [applyOp, rejectReferral, hst]
    | complete =>
        simp only [attemptTarget, Option.some.injEq] at htgt
        subst htgt
        by_cases hst : st.referral.status = .accepted
        · rw [hst] at hedge
          simp [isEdge] at hedge
        · simp [applyOp, completeReferral, hst]
  · intro hospitals patient src dst reason g r hr
    by_cases hsd : src = dst
    · simp [createReferral, hsd] at hr
    · by_cases hmem : src ∈ hospitals ∧ dst ∈ hospitals
      · simp only [createReferral, if_neg hsd, if_pos hmem] at hr
        injection hr with hr
        subst hr
        exact ⟨rfl, rfl⟩
      · simp [createReferral, hsd, hmem] at hr

/-- Witness for C7: accepting a referral that is still in Created (Created →
Accepted is not an edge of §4.1) fails with `InvalidStateTransition`. -/
theorem lifecycle_legality_witness :
    applyOp (fun s m => s ++ ":" ++ m) "k"
      { referral := { patient := 1, sourceHospital := 2, destHospital := 3,
                      reason := "care", grossAmount := 150,
                      status := .created, payment_status := .notPaid,
                      gatewayOrderId := none, rejection_reason := none },
        destWallet := [], sourceWallet := [] }
      (.accept 3) = .error .invalidStateTransition := by
  have h := (lifecycle_legality (fun s m => s ++ ":" ++ m) "k"
    { referral := { patient := 1, sourceHospital := 2, destHospital := 3,
                    reason := "care", grossAmount := 150,
                    status := .created, payment_status := .notPaid,
                    gatewayOrderId := none, rejection_reason := none },
      destWallet := [], sourceWallet := [] }
    (.accept 3)).2.2.1 .accepted rfl rfl
  exact h

/-- C9: rejecting a referral is only possible from AwaitingDecision with a
nonempty reason; it sets the status to Rejected and records the reason, and
it leaves both hospital wallets — ledgers and balances — exactly as they
were: the earlier settlement credit is not reversed. -/
theorem rejectReferral_keeps_credit (st : SettlementState) (acting : Nat)
    (reason : String) :
    (st.referral.status ≠ .awaitingDecision →
      rejectReferral st acting reason = .error .invalidStateTransition) ∧
    (∀ st₂, rejectReferral st acting "" ≠ .ok st₂) ∧
    (st.referral.status = .awaitingDecision → reason ≠ "" →
      rejectReferral st acting reason =
        .ok { st with referral := { st.referral with
                                    status := .rejected,
                                    rejection_reason := some reason } }) ∧
    (∀ st₂, rejectReferral st acting reason = .ok st₂ →
      st₂.referral.status = .rejected ∧
      st₂.destWallet = st.destWallet ∧
      st₂.sourceWallet = st.sourceWallet ∧
      currentBalance st₂.destWallet = currentBalance st.destWallet ∧
      currentBalance st₂.sourceWallet = currentBalance st.sourceWallet) := by
  refine ⟨?_, ?_, ?_, ?_⟩
  · intro hst
    simp [rejectReferral, hst]
  · intro st₂ hok
    by_cases hst : st.referral.status = .awaitingDecision
    · simp [rejectReferral, hst] at hok
    · simp [rejectReferral, hst] at hok
  · intro hst hr
    simp [rejectReferral, hst, hr]
  · intro st₂ hok
    by_cases hst : st.referral.status = .awaitingDecision
    · by_cases hr : reason = ""
      · simp [rejectReferral, hst, hr] at hok
      · simp only [rejectReferral, if_pos hst, if_neg hr] at hok
        injection hok with hok
        subst hok
        exact ⟨rfl, rfl, rfl, rfl, rfl⟩
    · simp [rejectReferral, hst] at hok

/-- Witness for C9: rejecting an awaiting, settled referral (75/35 already
credited) succeeds with reason recorded and both ledgers untouched. -/
theorem rejectReferral_keeps_credit_witness :
    rejectReferral
      { referral := { patient := 1, sourceHospital := 2, destHospital := 3,
                      reason := "care", grossAmount := 150,
                      status := .awaitingDecision, payment_status := .paid,
                      gatewayOrderId := some "order1",
                      rejection_reason := none },
        destWallet := [{ type := .referralEarning, amount := 75,
                         balance_after := 75,
                         description := "Referral earning",
                         relatedReferral := none }],
        sourceWallet := [{ type := .referralEarning, amount := 35,
                           balance_after := 35,
                           description := "Referral earning",
                           relatedReferral := none }] }
      3 "no beds available" =
      .ok { referral := { patient := 1, sourceHospital := 2,
                          destHospital := 3, reason := "care",
                          grossAmount := 150, status := .rejected,
                          payment_status := .paid,
                          gatewayOrderId := some "order1",
                          rejection_reason := some "no beds available" },
            destWallet := [{ type := .referralEarning, amount := 75,
                             balance_after := 75,
                             description := "Referral earning",
                             relatedReferral := none }],
            sourceWallet := [{ type := .referralEarning, amount := 35,
                               balance_after := 35,
                               description := "Referral earning",
                               relatedReferral := none }] } := by
  have h := (rejectReferral_keeps_credit
    { referral := { patient := 1, sourceHospital := 2, destHospital := 3,
                    reason := "care", grossAmount := 150,
                    status := .awaitingDecision, payment_status := .paid,
                    gatewayOrderId := some "order1",
                    rejection_reason := none },
      destWallet := [{ type := .referralEarning, amount := 75,
                       balance_after := 75, description := "Referral earning",
                       relatedReferral := none }],
      sourceWallet := [{ type := .referralEarning, amount := 35,
                         balance_after := 35,
                         description := "Referral earning",
                         relatedReferral := none }] }
    3 "no beds available").2.2.1 rfl (by simp)
  exact h

/-- A referral row as fetched by the patient dashboard from
`/api/patients/referrals`; only the status string is consulted by the
Active Referrals KPI. -/
structure DashboardReferral where
  status : String
deriving DecidableEq, Repr

/-- The Active Referrals KPI of the patient dashboard:
`referrals.filter(r => r.status !== 'discharged').length`. -/
def activeReferralsCount (referrals : List DashboardReferral) : Nat :=
  (referrals.filter (fun r => r.status != "discharged")).length

/-- The persisted referral status vocabulary `pending|accepted|rejected|
completed` (spec §6; the keys of `getStatusColor` in
frontend/src/pages/hospital/Inventory.jsx). -/
def referralStatusStrings : List String :=
  ["pending", "accepted", "rejected", "completed"]

/-- C10: since every referral status drawn from the vocabulary differs from
"discharged", the dashboard's filter keeps every fetched referral, so the
Active Referrals counter equals the total number of referrals fetched —
rejected and completed referrals included. -/
theorem activeReferrals_counts_all (referrals : List DashboardReferral)
    (h : ∀ r ∈ referrals, r.status ∈ referralStatusStrings) :
    activeReferralsCount referrals = referrals.length := by
  induction referrals with
  | nil => rfl
  | cons r rest ih =>
      have hr := h r (List.mem_cons_self r rest)
      have hs : (r.status != "discharged") = true := by
        simp only [referralStatusStrings, List.mem_cons,
          List.not_mem_nil, or_false] at hr
        rcases hr with h1 | h1 | h1 | h1 <;> simp [h1]
      have ih2 := ih fun x hx => h x (List.mem_cons_of_mem r hx)
      simp only [activeReferralsCount] at ih2 ⊢
      simp [List.filter_cons, hs, ih2]

/-- Witness for C10: a fetched list holding one rejected and one completed
referral is counted as two active referrals. -/
theorem activeReferrals_counts_all_witness :
    activeReferralsCount [{ status := "rejected" }, { status := "completed" }] =
      ([{ status := "rejected" }, { status := "completed" }] :
        List DashboardReferral).length :=
  activeReferrals_counts_all
    [{ status := "rejected" }, { status := "completed" }] (by decide)

end HealthEase
